import Mathlib

/-!
Verification of the COLMAP-to-training-format converter.

Shallow embedding of the two converter scripts
(`batch_convert_colmap.py` and `convert_with_separate_images.py`):
pose algebra over the reals, the per-sequence conversion loops, the
PLY point-cloud exporter, and the batch slot-assignment loop, together
with theorems settling the specification claims.

Floating-point arithmetic is modelled by exact real (or rational)
arithmetic; Python dictionaries are modelled by lookup functions and
association lists in insertion order.
-/

namespace Densnet

open Matrix

noncomputable section PoseAlgebra

/-- Model of `quaternion_to_rotation_matrix(q)` from both scripts: converts a
quaternion `(qw, qx, qy, qz)` to a 3x3 rotation matrix. -/
def quaternion_to_rotation_matrix (q : ℝ × ℝ × ℝ × ℝ) :
    Matrix (Fin 3) (Fin 3) ℝ :=
  let (qw, qx, qy, qz) := q
  !![1 - 2*qy^2 - 2*qz^2, 2*qx*qy - 2*qz*qw, 2*qx*qz + 2*qy*qw;
     2*qx*qy + 2*qz*qw, 1 - 2*qx^2 - 2*qz^2, 2*qy*qz - 2*qx*qw;
     2*qx*qz - 2*qy*qw, 2*qy*qz + 2*qx*qw, 1 - 2*qx^2 - 2*qy^2]

/-- Model of `rotation_matrix_to_quaternion(R)` from
`convert_with_separate_images.py`:
the four-branch trace-based conversion from a 3x3 rotation matrix to a
quaternion `[qw, qx, qy, qz]`. -/
def rotation_matrix_to_quaternion (R : Matrix (Fin 3) (Fin 3) ℝ) :
    ℝ × ℝ × ℝ × ℝ :=
  let trace := R 0 0 + R 1 1 + R 2 2
  if 0 < trace then
    let s := 0.5 / Real.sqrt (trace + 1.0)
    (0.25 / s, (R 2 1 - R 1 2) * s, (R 0 2 - R 2 0) * s, (R 1 0 - R 0 1) * s)
  else if R 1 1 < R 0 0 ∧ R 2 2 < R 0 0 then
    let s := 2.0 * Real.sqrt (1.0 + R 0 0 - R 1 1 - R 2 2)
    ((R 2 1 - R 1 2) / s, 0.25 * s, (R 0 1 + R 1 0) / s, (R 0 2 + R 2 0) / s)
  else if R 2 2 < R 1 1 then
    let s := 2.0 * Real.sqrt (1.0 + R 1 1 - R 0 0 - R 2 2)
    ((R 0 2 - R 2 0) / s, (R 0 1 + R 1 0) / s, 0.25 * s, (R 1 2 + R 2 1) / s)
  else
    let s := 2.0 * Real.sqrt (1.0 + R 2 2 - R 0 0 - R 1 1)
    ((R 1 0 - R 0 1) / s, (R 0 2 + R 2 0) / s, (R 1 2 + R 2 1) / s, 0.25 * s)

/-- The world-to-camera to camera-to-world pose inversion used by both
scripts: `R_c2w = R_w2c.T` and `t_c2w = -R_c2w @ t_w2c`. -/
def invert_pose (Rt : Matrix (Fin 3) (Fin 3) ℝ × (Fin 3 → ℝ)) :
    Matrix (Fin 3) (Fin 3) ℝ × (Fin 3 → ℝ) :=
  (Rt.1ᵀ, -(Rt.1ᵀ.mulVec Rt.2))

end PoseAlgebra

/-- A camera record parsed by `read_colmap_cameras`: COLMAP model name,
image size and model-specific parameter list. -/
structure CameraRec where
  model : String
  width : Int
  height : Int
  params : List ℝ

/-- An image record parsed by `read_colmap_images`: file name, owning camera
id, world-to-camera quaternion `(qw, qx, qy, qz)` and translation. -/
structure ImageData where
  name : String
  camera_id : Int
  quat : ℝ × ℝ × ℝ × ℝ
  trans : Fin 3 → ℝ

/-- A point record parsed by `read_colmap_points3D`: position and color
(track data is parsed and discarded). -/
structure Point3D where
  x : ℚ
  y : ℚ
  z : ℚ
  r : Int
  g : Int
  b : Int
deriving DecidableEq

/-- Model of `sorted(images.items(), key=lambda x: x[1]['name'])` from both
scripts:
the parsed image dictionary (modelled as an association list in insertion
order) sorted by image file name. -/
def sortImages (l : List (Int × ImageData)) : List (Int × ImageData) :=
  l.mergeSort (fun p q => decide (p.2.name ≤ q.2.name))

/-- Zero-padded decimal rendering, as in `f'{idx:08d}'`. -/
def zeroPad (w n : Nat) : String :=
  let s := toString n
  String.mk (List.replicate (w - s.length) '0') ++ s

/-- Fixed-point rendering with six fractional digits, as in `f'{v:.6f}'`
(on the exact rationals that model the float values). -/
def fmt6 (q : ℚ) : String :=
  let scaled : Int := ⌊q * 1000000 + 1/2⌋
  let sgn := if scaled < 0 then "-" else ""
  let n := scaled.natAbs
  sgn ++ toString (n / 1000000) ++ "." ++ zeroPad 6 (n % 1000000)

/-- One vertex line of `structure.ply`:
`f'{x:.6f} {y:.6f} {z:.6f} {int(r)} {int(g)} {int(b)}'`. -/
def plyVertexLine (p : Point3D) : String :=
  fmt6 p.x ++ " " ++ fmt6 p.y ++ " " ++ fmt6 p.z ++ " " ++
    toString p.r ++ " " ++ toString p.g ++ " " ++ toString p.b

/-- The writer of `structure.ply` shared by both scripts: a fixed ten-line
header declaring the vertex count, then one line per parsed point in parse
order. -/
def writePly (points : List Point3D) : List String :=
  ["ply", "format ascii 1.0", "element vertex " ++ toString points.length,
   "property float x", "property float y", "property float z",
   "property uchar red", "property uchar green", "property uchar blue",
   "end_header"] ++ points.map plyVertexLine

/-- The declared vertex count token of a PLY file: the suffix of the third
header line after `element vertex `. -/
def declaredVertexCount (out : List String) : Option String :=
  (out.get? 2).map (fun l => l.drop 15)

/-- The vertex lines of a PLY file: everything after the ten header lines. -/
def vertexLines (out : List String) : List String :=
  out.drop 10

/-- Model of `line.split()` in Python: split on whitespace, dropping empty tokens. -/
def splitWhitespace (s : String) : List String :=
  (s.split Char.isWhitespace).filter (fun t => t ≠ "")

/-- Whether a line survives the parsers' skip rule
(`if not line or line.startswith('#'): continue` after stripping). -/
def isDataLine (line : String) : Bool :=
  let l := line.trim
  !(l == "" || l.startsWith "#")

/-- Model of `float(s)` on the plain decimal literals appearing in COLMAP text files,
as an exact rational; `none` models the `ValueError` on malformed text. -/
def parseRat? (s : String) : Option ℚ :=
  let neg := s.startsWith "-"
  let s' := if neg then s.drop 1 else s
  let v? : Option ℚ :=
    match s'.split (fun c => c = '.') with
    | [ip] => (ip.toNat?).map (fun n => (n : ℚ))
    | [ip, fp] =>
      match ip.toNat?, fp.toNat? with
      | some n, some m => some ((n : ℚ) + (m : ℚ) / (10 : ℚ) ^ fp.length)
      | _, _ => none
    | _ => none
  v?.map (fun v => if neg then -v else v)

/-- Model of `read_colmap_points3D`: skip blank/comment lines; from each data line
take fields 1-3 as floats and 4-6 as ints; a missing field (`IndexError`)
or unparseable number (`ValueError`) aborts the whole parse. -/
def read_colmap_points3D : List String → Except Unit (List Point3D)
  | [] => .ok []
  | line :: rest =>
    if isDataLine line then
      match splitWhitespace line.trim with
      | _ :: sx :: sy :: sz :: sr :: sg :: sb :: _ =>
        match parseRat? sx, parseRat? sy, parseRat? sz,
            sr.toInt?, sg.toInt?, sb.toInt? with
        | some x, some y, some z, some r, some g, some b =>
          (read_colmap_points3D rest).map
            (fun ps => (⟨x, y, z, r, g, b⟩ : Point3D) :: ps)
        | _, _, _, _, _, _ => .error ()
      | _ => .error ()
    else
      read_colmap_points3D rest

/-- Errors aborting one sequence conversion: a pose referencing a camera id
absent from the camera dictionary (`KeyError`), a camera record with fewer
than four parameters (unpack `ValueError` or `IndexError`), and the
`No images found` check of `convert_with_separate_images.py`. -/
inductive ConvErr where
  | unknownCamera (cid : Int)
  | badParams (cid : Int)
  | noImagesResolved

noncomputable section SeparateImagesModel

/-- The pose message built for `motion.yaml` by `convert_sequence`:
position from `t_c2w`, orientation `(x, y, z, w)` from `quat_c2w`
reordered as `(qx, qy, qz, qw)`. -/
structure PoseMsg where
  px : ℝ
  py : ℝ
  pz : ℝ
  ox : ℝ
  oy : ℝ
  oz : ℝ
  ow : ℝ

/-- Mutable state of the image loop in `convert_sequence`. -/
structure SeqState where
  found : Nat
  missing : List String
  imageWrites : List (Nat × String)
  intrinsics : List ℝ
  poses : List (String × PoseMsg)

/-- One iteration of the image loop of `convert_sequence`
(`convert_with_separate_images.py`): resolve the image (else record it as
missing and continue), re-save it under the zero-padded index, append the
camera's first four parameters to the intrinsics list, and append the
camera-to-world pose message. The camera dictionary lookup and the
parameter unpacking raise, aborting the whole sequence. -/
def seqStep (cameras : Int → Option CameraRec)
    (findImage : String → Option String) (imreadOk : String → Bool)
    (idx : Nat) (img : ImageData) (st : SeqState) : Except ConvErr SeqState :=
  match findImage img.name with
  | none => .ok { st with missing := st.missing ++ [img.name] }
  | some src =>
    if imreadOk src then
      let st1 := { st with
        imageWrites := st.imageWrites ++ [(idx, zeroPad 8 idx ++ ".jpg")],
        found := st.found + 1 }
      match cameras img.camera_id with
      | none => .error (.unknownCamera img.camera_id)
      | some cam =>
        match cam.params with
        | fx :: fy :: cx :: cy :: _ =>
          let st2 := { st1 with intrinsics := st1.intrinsics ++ [fx, fy, cx, cy] }
          let R_c2w := (quaternion_to_rotation_matrix img.quat)ᵀ
          let t_c2w := -(R_c2w.mulVec img.trans)
          let q := rotation_matrix_to_quaternion R_c2w
          .ok { st2 with poses := st2.poses ++
            [("poses[" ++ toString idx ++ "]",
              ⟨t_c2w 0, t_c2w 1, t_c2w 2, q.2.1, q.2.2.1, q.2.2.2, q.1⟩)] }
        | _ => .error (.badParams img.camera_id)
    else
      .ok { st with missing := st.missing ++ [img.name] }

/-- The enumerate loop over `sorted_imgs` of
`convert_sequence`. -/
def seqLoop (cameras : Int → Option CameraRec)
    (findImage : String → Option String) (imreadOk : String → Bool) :
    Nat → List (Int × ImageData) → SeqState → Except ConvErr SeqState
  | _, [], st => .ok st
  | idx, (_, img) :: rest, st =>
    match seqStep cameras findImage imreadOk idx img st with
    | .error e => .error e
    | .ok st' => seqLoop cameras findImage imreadOk (idx + 1) rest st'

/-- The sequence directory produced by a successful `convert_sequence` run. -/
structure SeqOutput where
  imageWrites : List (Nat × String)
  missing : List String
  intrinsicsFile : List ℝ
  motionKeys : List String
  motionPoses : List PoseMsg
  plyLines : List String
  nImages : Nat
  nPoints : Nat

/-- Model of `convert_sequence(sparse_dir, output_dir, image_source_dir)` of
`convert_with_separate_images.py`, over the parsed camera dictionary
(modelled as a lookup function), the parsed image association list, the
parsed points, and the filesystem oracles `findImage` (`find_image`) and
`imreadOk` (`cv2.imread` success). -/
def convert_sequence (cameras : Int → Option CameraRec)
    (images : List (Int × ImageData)) (points3D : List Point3D)
    (findImage : String → Option String) (imreadOk : String → Bool) :
    Except ConvErr SeqOutput :=
  let sorted_imgs := sortImages images
  match seqLoop cameras findImage imreadOk 0 sorted_imgs ⟨0, [], [], [], []⟩ with
  | .error e => .error e
  | .ok st =>
    if st.found = 0 then .error .noImagesResolved
    else .ok {
      imageWrites := st.imageWrites
      missing := st.missing
      intrinsicsFile := st.intrinsics
      motionKeys := st.poses.map Prod.fst
      motionPoses := st.poses.map Prod.snd
      plyLines := writePly points3D
      nImages := st.found
      nPoints := points3D.length }

/-- Whether an image name is resolved by `convert_sequence`: `find_image`
locates a file and `cv2.imread` succeeds on it. -/
def resolvesSep (findImage : String → Option String) (imreadOk : String → Bool)
    (name : String) : Bool :=
  match findImage name with
  | some src => imreadOk src
  | none => false


/-- Projection of a `convert_sequence` result to its image writes. -/
def seqImageWritesOf : Except ConvErr SeqOutput → List (Nat × String)
  | .ok o => o.imageWrites
  | .error _ => []

/-- Projection of a `convert_sequence` result to its pose-dictionary keys. -/
def seqMotionKeysOf : Except ConvErr SeqOutput → List String
  | .ok o => o.motionKeys
  | .error _ => []

/-- Projection of a `convert_sequence` result to its concatenated
intrinsics file. -/
def seqIntrinsicsOf : Except ConvErr SeqOutput → List ℝ
  | .ok o => o.intrinsicsFile
  | .error _ => []

/-- The positions (counting from `idx`) of the entries of `l` whose image
resolves: the output indices that survive the skip rule. -/
def resolvedIdxFrom (findImage : String → Option String) (imreadOk : String → Bool)
    (idx : Nat) (l : List (Int × ImageData)) : List Nat :=
  (l.enumFrom idx).filterMap
    (fun p => if resolvesSep findImage imreadOk p.2.2.name then some p.1 else none)

/-- The records of `l` whose image resolves, in order. -/
def resolvedRecords (findImage : String → Option String) (imreadOk : String → Bool)
    (l : List (Int × ImageData)) : List ImageData :=
  (l.filter (fun p => resolvesSep findImage imreadOk p.2.name)).map (fun p => p.2)

end SeparateImagesModel

noncomputable section BatchColmapModel

/-- Mutable state of the image loop in `convert_colmap_to_training_format`. -/
structure BatchSeqState where
  imageWrites : List (Nat × String)
  warnings : List String
  intrinsicsWrites : List (Nat × Matrix (Fin 3) (Fin 3) ℝ)
  motion : List (Nat × Matrix (Fin 4) (Fin 4) ℝ)

/-- The 3x3 intrinsic matrix written per view by the batch converter. -/
def intrinsicMatrix (fx fy cx cy : ℝ) : Matrix (Fin 3) (Fin 3) ℝ :=
  !![fx, 0, cx; 0, fy, cy; 0, 0, 1]

/-- Model of `T = np.eye(4); T[:3,:3] = R_c2w; T[:3,3] = t_c2w` from the batch
converter. -/
def buildPose (R : Matrix (Fin 3) (Fin 3) ℝ) (t : Fin 3 → ℝ) :
    Matrix (Fin 4) (Fin 4) ℝ :=
  Matrix.of fun p q =>
    if hp : (p : Nat) < 3 then
      if hq : (q : Nat) < 3 then R ⟨p, hp⟩ ⟨q, hq⟩ else t ⟨p, hp⟩
    else if p = q then 1 else 0

/-- One iteration of the image loop of `convert_colmap_to_training_format`
(`batch_convert_colmap.py`): copy or link the source image when it
resolves (else only print a warning), then unconditionally write the
per-view intrinsics file and store the camera-to-world pose. The camera
dictionary lookup and parameter indexing raise, aborting the sequence. -/
def batchStep (cameras : Int → Option CameraRec)
    (resolveSrc : String → Option String)
    (idx : Nat) (img : ImageData) (st : BatchSeqState) :
    Except ConvErr BatchSeqState :=
  let st0 := match resolveSrc img.name with
    | some _ => { st with
        imageWrites := st.imageWrites ++ [(idx, zeroPad 10 idx ++ ".png")] }
    | none => { st with warnings := st.warnings ++ [img.name] }
  match cameras img.camera_id with
  | none => .error (.unknownCamera img.camera_id)
  | some cam =>
    match cam.params with
    | fx :: fy :: cx :: cy :: _ =>
      let st1 := { st0 with intrinsicsWrites :=
        st0.intrinsicsWrites ++ [(idx, intrinsicMatrix fx fy cx cy)] }
      let R_c2w := (quaternion_to_rotation_matrix img.quat)ᵀ
      let t_c2w := -(R_c2w.mulVec img.trans)
      .ok { st1 with motion := st1.motion ++ [(idx, buildPose R_c2w t_c2w)] }
    | _ => .error (.badParams img.camera_id)

/-- The enumerate loop over `sorted_images` of
`convert_colmap_to_training_format`. -/
def batchLoop (cameras : Int → Option CameraRec)
    (resolveSrc : String → Option String) :
    Nat → List (Int × ImageData) → BatchSeqState → Except ConvErr BatchSeqState
  | _, [], st => .ok st
  | idx, (_, img) :: rest, st =>
    match batchStep cameras resolveSrc idx img st with
    | .error e => .error e
    | .ok st' => batchLoop cameras resolveSrc (idx + 1) rest st'

/-- Model of `convert_colmap_to_training_format(sparse_dir, output_dir)` of
`batch_convert_colmap.py`, over the parsed collections and the image
resolution oracle (direct path or `os.walk` search). Returns the loop
state, the written `structure.ply` lines and the
`(len(sorted_images), len(points3D))` result pair. -/
def convert_colmap_to_training_format (cameras : Int → Option CameraRec)
    (images : List (Int × ImageData)) (points3D : List Point3D)
    (resolveSrc : String → Option String) :
    Except ConvErr (BatchSeqState × List String × Nat × Nat) :=
  let sorted_images := sortImages images
  match batchLoop cameras resolveSrc 0 sorted_images ⟨[], [], [], []⟩ with
  | .error e => .error e
  | .ok st => .ok (st, writePly points3D, sorted_images.length, points3D.length)

/-- The motion entries of a batch conversion result (empty on failure). -/
def motionOf (r : Except ConvErr (BatchSeqState × List String × Nat × Nat)) :
    List (Nat × Matrix (Fin 4) (Fin 4) ℝ) :=
  match r with
  | .ok (st, _, _, _) => st.motion
  | .error _ => []

/-- The per-view intrinsics writes of a batch conversion result. -/
def intrinsicsOf (r : Except ConvErr (BatchSeqState × List String × Nat × Nat)) :
    List (Nat × Matrix (Fin 3) (Fin 3) ℝ) :=
  match r with
  | .ok (st, _, _, _) => st.intrinsicsWrites
  | .error _ => []

/-- The image writes of a batch conversion result. -/
def imageWritesOf (r : Except ConvErr (BatchSeqState × List String × Nat × Nat)) :
    List (Nat × String) :=
  match r with
  | .ok (st, _, _, _) => st.imageWrites
  | .error _ => []

end BatchColmapModel

/-- The batch driver loop shared by both scripts' `main`: iterate over the
discovered reconstructions in discovery order, compute the output slot from
the current `(bag_idx, seq_idx)` counters, run the conversion, and advance
the counters (wrapping `seq_idx` at 10) only when it succeeds — the
`except` handler skips the increment.  Each item is abstracted by its
conversion result; the returned trace records each item's assigned slot and
whether it succeeded. -/
def runConv : Nat → Nat → List (Except String (Nat × Nat)) →
    List ((Nat × Nat) × Bool)
  | _, _, [] => []
  | bag_idx, seq_idx, r :: rest =>
    match r with
    | .ok _ =>
      ((bag_idx, seq_idx), true) ::
        (if seq_idx + 1 ≥ 10 then runConv (bag_idx + 1) 0 rest
         else runConv bag_idx (seq_idx + 1) rest)
    | .error _ => ((bag_idx, seq_idx), false) :: runConv bag_idx seq_idx rest

/-- Sample PINHOLE camera record used by concrete witnesses. -/
def camPin : CameraRec := ⟨"PINHOLE", 640, 480, [500, 500, 320, 240]⟩

/-- Sample camera dictionary holding only camera id 1. -/
def camsW : Int → Option CameraRec := fun cid => if cid = 1 then some camPin else none

/-- Sample image record used by concrete witnesses. -/
def imgA : ImageData := ⟨"a.png", 1, (1, 0, 0, 0), ![0, 0, 0]⟩

/-- Second sample image record used by concrete witnesses. -/
def imgB : ImageData := ⟨"b.png", 1, (1, 0, 0, 0), ![0, 0, 1]⟩

/-- Sample image record referencing an absent camera id. -/
def imgBadCam : ImageData := ⟨"b.png", 2, (1, 0, 0, 0), ![0, 0, 1]⟩

/-- C4: double application of `invert_pose` is the identity on rigid
transforms whose rotation part is orthonormal. -/
theorem invert_pose_involutive (R : Matrix (Fin 3) (Fin 3) ℝ) (t : Fin 3 → ℝ)
    (horth : Rᵀ * R = 1) : invert_pose (invert_pose (R, t)) = (R, t) := by
  have hRRt : R * Rᵀ = 1 := Matrix.mul_eq_one_comm.mpr horth
  unfold invert_pose
  simp only [Matrix.transpose_transpose]
  refine Prod.ext rfl ?_
  show -(R.mulVec (-(Rᵀ.mulVec t))) = t
  rw [Matrix.mulVec_neg, neg_neg, Matrix.mulVec_mulVec, hRRt, Matrix.one_mulVec]

section QuatIdentities

/-!
Polynomial identities satisfied by the entries of a proper rotation
matrix `!![a,b,c; d,e,f; g,h,i]`.  Hypotheses `hR*`/`hC*` are the
row/column orthonormality equations and `hA*` the entries of
`adjugate = transpose` (equivalent to `det = 1` for orthogonal
matrices).  Writing `P = 1+a+e+i`, `A = 1+a-e-i`, `B = 1+e-a-i`,
`C = 1+i-a-e` (which are `4qw²`, `4qx²`, `4qy²`, `4qz²` for a unit
quaternion `q` generating the rotation), these identities express that
the Gram matrix of `(2qw, 2qx, 2qy, 2qz)` has rank one.
-/

variable {a b c d e f g h i : ℝ}

lemma quatPA (hC2 : b*b + e*e + h*h = 1) (hC3 : c*c + f*f + i*i = 1)
    (hR1 : a*a + b*b + c*c = 1) (hA1 : e*i - f*h = a) :
    (h - f)^2 = (1+a+e+i) * (1+a-e-i) := by
  linear_combination hC2 + hC3 - hR1 + 2*hA1

lemma quatPB (hR1 : a*a + b*b + c*c = 1) (hR3 : g*g + h*h + i*i = 1)
    (hC2 : b*b + e*e + h*h = 1) (hA5 : a*i - c*g = e) :
    (c - g)^2 = (1+a+e+i) * (1+e-a-i) := by
  linear_combination hR1 + hR3 - hC2 + 2*hA5

lemma quatPC (hC1 : a*a + d*d + g*g = 1) (hC2 : b*b + e*e + h*h = 1)
    (hR3 : g*g + h*h + i*i = 1) (hA9 : a*e - b*d = i) :
    (d - b)^2 = (1+a+e+i) * (1+i-a-e) := by
  linear_combination hC1 + hC2 - hR3 + 2*hA9

lemma quatAB (hC1 : a*a + d*d + g*g = 1) (hC2 : b*b + e*e + h*h = 1)
    (hR3 : g*g + h*h + i*i = 1) (hA9 : a*e - b*d = i) :
    (b + d)^2 = (1+a-e-i) * (1+e-a-i) := by
  linear_combination hC1 + hC2 - hR3 - 2*hA9

lemma quatAC (hR1 : a*a + b*b + c*c = 1) (hR3 : g*g + h*h + i*i = 1)
    (hC2 : b*b + e*e + h*h = 1) (hA5 : a*i - c*g = e) :
    (c + g)^2 = (1+a-e-i) * (1+i-a-e) := by
  linear_combination hR1 + hR3 - hC2 - 2*hA5

lemma quatBC (hR2 : d*d + e*e + f*f = 1) (hR3 : g*g + h*h + i*i = 1)
    (hC1 : a*a + d*d + g*g = 1) (hA1 : e*i - f*h = a) :
    (f + h)^2 = (1+e-a-i) * (1+i-a-e) := by
  linear_combination hR2 + hR3 - hC1 - 2*hA1

lemma quatPxy (hA2 : c*h - b*i = d) (hA4 : f*g - d*i = b)
    (hC4 : a*b + d*e + g*h = 0) (hR4 : a*d + b*e + c*f = 0) :
    (h - f) * (c - g) = (1+a+e+i) * (b + d) := by
  linear_combination hA2 + hA4 - hC4 - hR4

lemma quatPxz (hA7 : d*h - e*g = c) (hA3 : b*f - c*e = g)
    (hC5 : a*c + d*f + g*i = 0) (hR5 : a*g + b*h + c*i = 0) :
    (h - f) * (d - b) = (1+a+e+i) * (c + g) := by
  linear_combination hA7 + hA3 - hC5 - hR5

lemma quatPyz (hA6 : c*d - a*f = h) (hA8 : b*g - a*h = f)
    (hC6 : b*c + e*f + h*i = 0) (hR6 : d*g + e*h + f*i = 0) :
    (c - g) * (d - b) = (1+a+e+i) * (f + h) := by
  linear_combination hA6 + hA8 - hC6 - hR6

lemma quatAwy (hA7 : d*h - e*g = c) (hA3 : b*f - c*e = g)
    (hR5 : a*g + b*h + c*i = 0) (hC5 : a*c + d*f + g*i = 0) :
    (b + d) * (h - f) = (1+a-e-i) * (c - g) := by
  linear_combination hA7 - hA3 + hR5 - hC5

lemma quatAwz (hA2 : c*h - b*i = d) (hA4 : f*g - d*i = b)
    (hC4 : a*b + d*e + g*h = 0) (hR4 : a*d + b*e + c*f = 0) :
    (c + g) * (h - f) = (1+a-e-i) * (d - b) := by
  linear_combination hA2 - hA4 + hC4 - hR4

lemma quatAyz (hA6 : c*d - a*f = h) (hA8 : b*g - a*h = f)
    (hC6 : b*c + e*f + h*i = 0) (hR6 : d*g + e*h + f*i = 0) :
    (b + d) * (c + g) = (1+a-e-i) * (f + h) := by
  linear_combination hA6 + hA8 + hC6 + hR6

lemma quatBwx (hA6 : c*d - a*f = h) (hA8 : b*g - a*h = f)
    (hC6 : b*c + e*f + h*i = 0) (hR6 : d*g + e*h + f*i = 0) :
    (b + d) * (c - g) = (1+e-a-i) * (h - f) := by
  linear_combination hA6 - hA8 + hC6 - hR6

lemma quatBwz (hA2 : c*h - b*i = d) (hA4 : f*g - d*i = b)
    (hR4 : a*d + b*e + c*f = 0) (hC4 : a*b + d*e + g*h = 0) :
    (f + h) * (c - g) = (1+e-a-i) * (d - b) := by
  linear_combination hA2 - hA4 + hR4 - hC4

lemma quatBxz (hA7 : d*h - e*g = c) (hA3 : b*f - c*e = g)
    (hR5 : a*g + b*h + c*i = 0) (hC5 : a*c + d*f + g*i = 0) :
    (b + d) * (f + h) = (1+e-a-i) * (c + g) := by
  linear_combination hA7 + hA3 + hR5 + hC5

lemma quatCwx (hA6 : c*d - a*f = h) (hA8 : b*g - a*h = f)
    (hR6 : d*g + e*h + f*i = 0) (hC6 : b*c + e*f + h*i = 0) :
    (c + g) * (d - b) = (1+i-a-e) * (h - f) := by
  linear_combination hA6 - hA8 + hR6 - hC6

lemma quatCwy (hA7 : d*h - e*g = c) (hA3 : b*f - c*e = g)
    (hC5 : a*c + d*f + g*i = 0) (hR5 : a*g + b*h + c*i = 0) :
    (f + h) * (d - b) = (1+i-a-e) * (c - g) := by
  linear_combination hA7 - hA3 + hC5 - hR5

lemma quatCxy (hA2 : c*h - b*i = d) (hA4 : f*g - d*i = b)
    (hC4 : a*b + d*e + g*h = 0) (hR4 : a*d + b*e + c*f = 0) :
    (c + g) * (f + h) = (1+i-a-e) * (b + d) := by
  linear_combination hA2 + hA4 + hC4 + hR4

/-- A coordinate of a unit vector is at most 1. -/
lemma coord_le_one (x y z : ℝ) (hx : x*x + y*y + z*z = 1) : x ≤ 1 := by
  nlinarith [sq_nonneg (x - 1), sq_nonneg y, sq_nonneg z]

/-- A coordinate of a unit vector is at least -1. -/
lemma neg_one_le_coord (x y z : ℝ) (hx : x*x + y*y + z*z = 1) : -1 ≤ x := by
  nlinarith [sq_nonneg (x + 1), sq_nonneg y, sq_nonneg z]

section BranchCores

variable {a b c d e f g h i : ℝ}

set_option maxHeartbeats 3200000 in
/-- Trace-positive branch of the quaternion round-trip, for `u = √(1+trace)`. -/
lemma branch1_core (u : ℝ) (hu : u^2 = 1+a+e+i) (hu0 : u ≠ 0)
    (hR1 : a*a + b*b + c*c = 1) (hR2 : d*d + e*e + f*f = 1)
    (hR3 : g*g + h*h + i*i = 1) (hR4 : a*d + b*e + c*f = 0)
    (hR5 : a*g + b*h + c*i = 0) (hR6 : d*g + e*h + f*i = 0)
    (hC1 : a*a + d*d + g*g = 1) (hC2 : b*b + e*e + h*h = 1)
    (hC3 : c*c + f*f + i*i = 1) (hC4 : a*b + d*e + g*h = 0)
    (hC5 : a*c + d*f + g*i = 0) (hC6 : b*c + e*f + h*i = 0)
    (hA1 : e*i - f*h = a) (hA2 : c*h - b*i = d) (hA3 : b*f - c*e = g)
    (hA4 : f*g - d*i = b) (hA5 : a*i - c*g = e) (hA6 : c*d - a*f = h)
    (hA7 : d*h - e*g = c) (hA8 : b*g - a*h = f) (hA9 : a*e - b*d = i) :
    quaternion_to_rotation_matrix
      (0.25 / (0.5 / u), (h - f) * (0.5 / u), (c - g) * (0.5 / u),
        (d - b) * (0.5 / u)) = !![a, b, c; d, e, f; g, h, i] := by
  have hPA := quatPA hC2 hC3 hR1 hA1
  have hPB := quatPB hR1 hR3 hC2 hA5
  have hPC := quatPC hC1 hC2 hR3 hA9
  have hPxy := quatPxy hA2 hA4 hC4 hR4
  have hPxz := quatPxz hA7 hA3 hC5 hR5
  have hPyz := quatPyz hA6 hA8 hC6 hR6
  have e1 : (0.25 : ℝ) / (0.5 / u) = u / 2 := by rw [div_div_eq_mul_div]; ring
  rw [e1]
  ext j k
  fin_cases j <;> fin_cases k <;>
    simp only [quaternion_to_rotation_matrix, Matrix.cons_val', Matrix.cons_val_zero,
      Matrix.cons_val_one, Matrix.head_cons, Matrix.head_fin_const, Matrix.cons_val_fin_one,
      Matrix.empty_val', Matrix.of_apply, Fin.isValue]
  · field_simp
    linear_combination -(1/2) * hPB - (1/2) * hPC + (1 - a) * hu
  · field_simp
    linear_combination (1/2) * hPxy - (1/2) * (b + d) * hu
  · field_simp
    linear_combination (1/2) * hPxz - (1/2) * (c + g) * hu
  · field_simp
    linear_combination (1/2) * hPxy - (1/2) * (b + d) * hu
  · field_simp
    linear_combination -(1/2) * hPA - (1/2) * hPC + (1 - e) * hu
  · field_simp
    linear_combination (1/2) * hPyz - (1/2) * (f + h) * hu
  · field_simp
    linear_combination (1/2) * hPxz - (1/2) * (c + g) * hu
  · field_simp
    linear_combination (1/2) * hPyz - (1/2) * (f + h) * hu
  · field_simp
    linear_combination -(1/2) * hPA - (1/2) * hPB + (1 - i) * hu

set_option maxHeartbeats 3200000 in
/-- Branch of the quaternion round-trip dominated by `R 0 0`, for
`u = √(1 + R 0 0 - R 1 1 - R 2 2)`. -/
lemma branch2_core (u : ℝ) (hu : u^2 = 1+a-e-i) (hu0 : u ≠ 0)
    (hR1 : a*a + b*b + c*c = 1) (hR2 : d*d + e*e + f*f = 1)
    (hR3 : g*g + h*h + i*i = 1) (hR4 : a*d + b*e + c*f = 0)
    (hR5 : a*g + b*h + c*i = 0) (hR6 : d*g + e*h + f*i = 0)
    (hC1 : a*a + d*d + g*g = 1) (hC2 : b*b + e*e + h*h = 1)
    (hC3 : c*c + f*f + i*i = 1) (hC4 : a*b + d*e + g*h = 0)
    (hC5 : a*c + d*f + g*i = 0) (hC6 : b*c + e*f + h*i = 0)
    (hA1 : e*i - f*h = a) (hA2 : c*h - b*i = d) (hA3 : b*f - c*e = g)
    (hA4 : f*g - d*i = b) (hA5 : a*i - c*g = e) (hA6 : c*d - a*f = h)
    (hA7 : d*h - e*g = c) (hA8 : b*g - a*h = f) (hA9 : a*e - b*d = i) :
    quaternion_to_rotation_matrix
      ((h - f) / (2 * u), 0.25 * (2 * u), (b + d) / (2 * u),
        (c + g) / (2 * u)) = !![a, b, c; d, e, f; g, h, i] := by
  have hAB := quatAB hC1 hC2 hR3 hA9
  have hAC := quatAC hR1 hR3 hC2 hA5
  have hAwy := quatAwy hA7 hA3 hR5 hC5
  have hAwz := quatAwz hA2 hA4 hC4 hR4
  have hAyz := quatAyz hA6 hA8 hC6 hR6
  have e1 : (0.25 : ℝ) * (2 * u) = u / 2 := by ring
  rw [e1]
  ext j k
  fin_cases j <;> fin_cases k <;>
    simp only [quaternion_to_rotation_matrix, Matrix.cons_val', Matrix.cons_val_zero,
      Matrix.cons_val_one, Matrix.head_cons, Matrix.head_fin_const, Matrix.cons_val_fin_one,
      Matrix.empty_val', Matrix.of_apply, Fin.isValue]
  · field_simp
    linear_combination 4*(1 - a) * hu - 2 * hAB - 2 * hAC
  · field_simp
    linear_combination 4*u*(d - b) * hu - 4*u * hAwz
  · field_simp
    linear_combination 4*u * hAwy - 4*u*(c - g) * hu
  · field_simp
    linear_combination 4*u * hAwz - 4*u*(d - b) * hu
  · field_simp
    linear_combination (16*(1 - e) - 8*u^2 - 8*(1+a-e-i)) * hu - 8 * hAC
  · field_simp
    linear_combination 4*u * hAyz - 4*u*(f + h) * hu
  · field_simp
    linear_combination 4*u*(c - g) * hu - 4*u * hAwy
  · field_simp
    linear_combination 4*u * hAyz - 4*u*(f + h) * hu
  · field_simp
    linear_combination (16*(1 - i) - 8*u^2 - 8*(1+a-e-i)) * hu - 8 * hAB

set_option maxHeartbeats 3200000 in
/-- Branch of the quaternion round-trip dominated by `R 1 1`, for
`u = √(1 + R 1 1 - R 0 0 - R 2 2)`. -/
lemma branch3_core (u : ℝ) (hu : u^2 = 1+e-a-i) (hu0 : u ≠ 0)
    (hR1 : a*a + b*b + c*c = 1) (hR2 : d*d + e*e + f*f = 1)
    (hR3 : g*g + h*h + i*i = 1) (hR4 : a*d + b*e + c*f = 0)
    (hR5 : a*g + b*h + c*i = 0) (hR6 : d*g + e*h + f*i = 0)
    (hC1 : a*a + d*d + g*g = 1) (hC2 : b*b + e*e + h*h = 1)
    (hC3 : c*c + f*f + i*i = 1) (hC4 : a*b + d*e + g*h = 0)
    (hC5 : a*c + d*f + g*i = 0) (hC6 : b*c + e*f + h*i = 0)
    (hA1 : e*i - f*h = a) (hA2 : c*h - b*i = d) (hA3 : b*f - c*e = g)
    (hA4 : f*g - d*i = b) (hA5 : a*i - c*g = e) (hA6 : c*d - a*f = h)
    (hA7 : d*h - e*g = c) (hA8 : b*g - a*h = f) (hA9 : a*e - b*d = i) :
    quaternion_to_rotation_matrix
      ((c - g) / (2 * u), (b + d) / (2 * u), 0.25 * (2 * u),
        (f + h) / (2 * u)) = !![a, b, c; d, e, f; g, h, i] := by
  have hAB := quatAB hC1 hC2 hR3 hA9
  have hBC := quatBC hR2 hR3 hC1 hA1
  have hBwx := quatBwx hA6 hA8 hC6 hR6
  have hBwz := quatBwz hA2 hA4 hR4 hC4
  have hBxz := quatBxz hA7 hA3 hR5 hC5
  have e1 : (0.25 : ℝ) * (2 * u) = u / 2 := by ring
  rw [e1]
  ext j k
  fin_cases j <;> fin_cases k <;>
    simp only [quaternion_to_rotation_matrix, Matrix.cons_val', Matrix.cons_val_zero,
      Matrix.cons_val_one, Matrix.head_cons, Matrix.head_fin_const, Matrix.cons_val_fin_one,
      Matrix.empty_val', Matrix.of_apply, Fin.isValue]
  · field_simp
    linear_combination (16*(1 - a) - 8*u^2 - 8*(1+e-a-i)) * hu - 8 * hBC
  · field_simp
    linear_combination 8*u*(d - b) * hu - 8*u * hBwz
  · field_simp
    linear_combination 4*u * hBxz - 4*u*(c + g) * hu
  · field_simp
    linear_combination 8*u * hBwz - 8*u*(d - b) * hu
  · field_simp
    linear_combination 4*(1 - e) * hu - 2 * hAB - 2 * hBC
  · field_simp
    linear_combination 4*u*(h - f) * hu - 4*u * hBwx
  · field_simp
    linear_combination 4*u * hBxz - 4*u*(c + g) * hu
  · field_simp
    linear_combination 4*u * hBwx - 4*u*(h - f) * hu
  · field_simp
    linear_combination (16*(1 - i) - 8*u^2 - 8*(1+e-a-i)) * hu - 8 * hAB

set_option maxHeartbeats 3200000 in
/-- Branch of the quaternion round-trip dominated by `R 2 2`, for
`u = √(1 + R 2 2 - R 0 0 - R 1 1)`. -/
lemma branch4_core (u : ℝ) (hu : u^2 = 1+i-a-e) (hu0 : u ≠ 0)
    (hR1 : a*a + b*b + c*c = 1) (hR2 : d*d + e*e + f*f = 1)
    (hR3 : g*g + h*h + i*i = 1) (hR4 : a*d + b*e + c*f = 0)
    (hR5 : a*g + b*h + c*i = 0) (hR6 : d*g + e*h + f*i = 0)
    (hC1 : a*a + d*d + g*g = 1) (hC2 : b*b + e*e + h*h = 1)
    (hC3 : c*c + f*f + i*i = 1) (hC4 : a*b + d*e + g*h = 0)
    (hC5 : a*c + d*f + g*i = 0) (hC6 : b*c + e*f + h*i = 0)
    (hA1 : e*i - f*h = a) (hA2 : c*h - b*i = d) (hA3 : b*f - c*e = g)
    (hA4 : f*g - d*i = b) (hA5 : a*i - c*g = e) (hA6 : c*d - a*f = h)
    (hA7 : d*h - e*g = c) (hA8 : b*g - a*h = f) (hA9 : a*e - b*d = i) :
    quaternion_to_rotation_matrix
      ((d - b) / (2 * u), (c + g) / (2 * u), (f + h) / (2 * u),
        0.25 * (2 * u)) = !![a, b, c; d, e, f; g, h, i] := by
  have hAC := quatAC hR1 hR3 hC2 hA5
  have hBC := quatBC hR2 hR3 hC1 hA1
  have hCwx := quatCwx hA6 hA8 hR6 hC6
  have hCwy := quatCwy hA7 hA3 hC5 hR5
  have hCxy := quatCxy hA2 hA4 hC4 hR4
  have e1 : (0.25 : ℝ) * (2 * u) = u / 2 := by ring
  rw [e1]
  ext j k
  fin_cases j <;> fin_cases k <;>
    simp only [quaternion_to_rotation_matrix, Matrix.cons_val', Matrix.cons_val_zero,
      Matrix.cons_val_one, Matrix.head_cons, Matrix.head_fin_const, Matrix.cons_val_fin_one,
      Matrix.empty_val', Matrix.of_apply, Fin.isValue]
  · field_simp
    linear_combination (16*(1 - a) - 8*u^2 - 8*(1+i-a-e)) * hu - 8 * hBC
  · field_simp
    linear_combination 4*u * hCxy - 4*u*(b + d) * hu
  · field_simp
    linear_combination 8*u * hCwy - 8*u*(c - g) * hu
  · field_simp
    linear_combination 4*u * hCxy - 4*u*(b + d) * hu
  · field_simp
    linear_combination (16*(1 - e) - 8*u^2 - 8*(1+i-a-e)) * hu - 8 * hAC
  · field_simp
    linear_combination 8*u*(h - f) * hu - 8*u * hCwx
  · field_simp
    linear_combination 8*u*(c - g) * hu - 8*u * hCwy
  · field_simp
    linear_combination 8*u * hCwx - 8*u*(h - f) * hu
  · field_simp
    linear_combination 4*(1 - i) * hu - 2 * hAC - 2 * hBC

end BranchCores

end QuatIdentities

set_option maxHeartbeats 1600000 in
/-- C5: for every proper rotation matrix `R` (orthonormal with determinant 1),
`quaternion_to_rotation_matrix (rotation_matrix_to_quaternion R)` equals `R`
exactly (hence within any tolerance), in each of the four branches of the
trace-based conversion. -/
theorem quaternion_roundtrip_exact (R : Matrix (Fin 3) (Fin 3) ℝ)
    (horth : R * Rᵀ = 1) (hdet : R.det = 1) :
    quaternion_to_rotation_matrix (rotation_matrix_to_quaternion R) = R := by
  have horth' : Rᵀ * R = 1 := Matrix.mul_eq_one_comm.mp horth
  have hadj : R.adjugate = Rᵀ := by
    have hmul : R * R.adjugate = 1 := by rw [Matrix.mul_adjugate, hdet, one_smul]
    calc R.adjugate = 1 * R.adjugate := (one_mul _).symm
      _ = (Rᵀ * R) * R.adjugate := by rw [horth']
      _ = Rᵀ * (R * R.adjugate) := by rw [Matrix.mul_assoc]
      _ = Rᵀ * 1 := by rw [hmul]
      _ = Rᵀ := by rw [Matrix.mul_one]
  have hrow : ∀ j k, (R * Rᵀ) j k = (1 : Matrix (Fin 3) (Fin 3) ℝ) j k :=
    fun j k => by rw [horth]
  have hcol : ∀ j k, (Rᵀ * R) j k = (1 : Matrix (Fin 3) (Fin 3) ℝ) j k :=
    fun j k => by rw [horth']
  have hadje : ∀ j k, R.adjugate j k = Rᵀ j k := fun j k => by rw [hadj]
  have hR1 : R 0 0 * R 0 0 + R 0 1 * R 0 1 + R 0 2 * R 0 2 = 1 := by
    simpa [Matrix.mul_apply, Matrix.transpose_apply, Fin.sum_univ_three,
      Matrix.one_apply] using hrow 0 0
  have hR2 : R 1 0 * R 1 0 + R 1 1 * R 1 1 + R 1 2 * R 1 2 = 1 := by
    simpa [Matrix.mul_apply, Matrix.transpose_apply, Fin.sum_univ_three,
      Matrix.one_apply] using hrow 1 1
  have hR3 : R 2 0 * R 2 0 + R 2 1 * R 2 1 + R 2 2 * R 2 2 = 1 := by
    simpa [Matrix.mul_apply, Matrix.transpose_apply, Fin.sum_univ_three,
      Matrix.one_apply] using hrow 2 2
  have hR4 : R 0 0 * R 1 0 + R 0 1 * R 1 1 + R 0 2 * R 1 2 = 0 := by
    simpa [Matrix.mul_apply, Matrix.transpose_apply, Fin.sum_univ_three,
      Matrix.one_apply] using hrow 0 1
  have hR5 : R 0 0 * R 2 0 + R 0 1 * R 2 1 + R 0 2 * R 2 2 = 0 := by
    simpa [Matrix.mul_apply, Matrix.transpose_apply, Fin.sum_univ_three,
      Matrix.one_apply] using hrow 0 2
  have hR6 : R 1 0 * R 2 0 + R 1 1 * R 2 1 + R 1 2 * R 2 2 = 0 := by
    simpa [Matrix.mul_apply, Matrix.transpose_apply, Fin.sum_univ_three,
      Matrix.one_apply] using hrow 1 2
  have hC1 : R 0 0 * R 0 0 + R 1 0 * R 1 0 + R 2 0 * R 2 0 = 1 := by
    simpa [Matrix.mul_apply, Matrix.transpose_apply, Fin.sum_univ_three,
      Matrix.one_apply] using hcol 0 0
  have hC2 : R 0 1 * R 0 1 + R 1 1 * R 1 1 + R 2 1 * R 2 1 = 1 := by
    simpa [Matrix.mul_apply, Matrix.transpose_apply, Fin.sum_univ_three,
      Matrix.one_apply] using hcol 1 1
  have hC3 : R 0 2 * R 0 2 + R 1 2 * R 1 2 + R 2 2 * R 2 2 = 1 := by
    simpa [Matrix.mul_apply, Matrix.transpose_apply, Fin.sum_univ_three,
      Matrix.one_apply] using hcol 2 2
  have hC4 : R 0 0 * R 0 1 + R 1 0 * R 1 1 + R 2 0 * R 2 1 = 0 := by
    simpa [Matrix.mul_apply, Matrix.transpose_apply, Fin.sum_univ_three,
      Matrix.one_apply] using hcol 0 1
  have hC5 : R 0 0 * R 0 2 + R 1 0 * R 1 2 + R 2 0 * R 2 2 = 0 := by
    simpa [Matrix.mul_apply, Matrix.transpose_apply, Fin.sum_univ_three,
      Matrix.one_apply] using hcol 0 2
  have hC6 : R 0 1 * R 0 2 + R 1 1 * R 1 2 + R 2 1 * R 2 2 = 0 := by
    simpa [Matrix.mul_apply, Matrix.transpose_apply, Fin.sum_univ_three,
      Matrix.one_apply] using hcol 1 2
  have hA1 : R 1 1 * R 2 2 - R 1 2 * R 2 1 = R 0 0 := by
    have h := hadje 0 0; rw [Matrix.adjugate_fin_three] at h
    simp [Matrix.transpose_apply] at h; linear_combination h
  have hA2 : R 0 2 * R 2 1 - R 0 1 * R 2 2 = R 1 0 := by
    have h := hadje 0 1; rw [Matrix.adjugate_fin_three] at h
    simp [Matrix.transpose_apply] at h; linear_combination h
  have hA3 : R 0 1 * R 1 2 - R 0 2 * R 1 1 = R 2 0 := by
    have h := hadje 0 2; rw [Matrix.adjugate_fin_three] at h
    simp [Matrix.transpose_apply] at h; linear_combination h
  have hA4 : R 1 2 * R 2 0 - R 1 0 * R 2 2 = R 0 1 := by
    have h := hadje 1 0; rw [Matrix.adjugate_fin_three] at h
    simp [Matrix.transpose_apply] at h; linear_combination h
  have hA5 : R 0 0 * R 2 2 - R 0 2 * R 2 0 = R 1 1 := by
    have h := hadje 1 1; rw [Matrix.adjugate_fin_three] at h
    simp [Matrix.transpose_apply] at h; linear_combination h
  have hA6 : R 0 2 * R 1 0 - R 0 0 * R 1 2 = R 2 1 := by
    have h := hadje 1 2; rw [Matrix.adjugate_fin_three] at h
    simp [Matrix.transpose_apply] at h; linear_combination h
  have hA7 : R 1 0 * R 2 1 - R 1 1 * R 2 0 = R 0 2 := by
    have h := hadje 2 0; rw [Matrix.adjugate_fin_three] at h
    simp [Matrix.transpose_apply] at h; linear_combination h
  have hA8 : R 0 1 * R 2 0 - R 0 0 * R 2 1 = R 1 2 := by
    have h := hadje 2 1; rw [Matrix.adjugate_fin_three] at h
    simp [Matrix.transpose_apply] at h; linear_combination h
  have hA9 : R 0 0 * R 1 1 - R 0 1 * R 1 0 = R 2 2 := by
    have h := hadje 2 2; rw [Matrix.adjugate_fin_three] at h
    simp [Matrix.transpose_apply] at h; linear_combination h
  have ha1 : R 0 0 ≤ 1 := coord_le_one _ _ _ hR1
  have he1 : R 1 1 ≤ 1 := coord_le_one (R 1 1) (R 1 0) (R 1 2) (by linarith)
  have hi1 : R 2 2 ≤ 1 := coord_le_one (R 2 2) (R 2 0) (R 2 1) (by linarith)
  have him : -1 ≤ R 2 2 := neg_one_le_coord (R 2 2) (R 2 0) (R 2 1) (by linarith)
  simp only [rotation_matrix_to_quaternion]
  split_ifs with ht hd1 hd2
  · -- trace-positive branch
    have hpos : (0:ℝ) < R 0 0 + R 1 1 + R 2 2 + 1.0 := by norm_num; linarith
    have hu : Real.sqrt (R 0 0 + R 1 1 + R 2 2 + 1.0) ^ 2
        = 1 + R 0 0 + R 1 1 + R 2 2 := by
      rw [Real.sq_sqrt (le_of_lt hpos)]; ring
    have hu0 : Real.sqrt (R 0 0 + R 1 1 + R 2 2 + 1.0) ≠ 0 :=
      ne_of_gt (Real.sqrt_pos.mpr hpos)
    conv_rhs => rw [Matrix.eta_fin_three R]
    exact branch1_core _ hu hu0 hR1 hR2 hR3 hR4 hR5 hR6 hC1 hC2 hC3 hC4 hC5 hC6
      hA1 hA2 hA3 hA4 hA5 hA6 hA7 hA8 hA9
  · -- R 0 0 dominant branch
    obtain ⟨hba, hca⟩ := hd1
    have hpos : (0:ℝ) < 1.0 + R 0 0 - R 1 1 - R 2 2 := by norm_num; linarith
    have hu : Real.sqrt (1.0 + R 0 0 - R 1 1 - R 2 2) ^ 2
        = 1 + R 0 0 - R 1 1 - R 2 2 := by
      rw [Real.sq_sqrt (le_of_lt hpos)]; ring
    have hu0 : Real.sqrt (1.0 + R 0 0 - R 1 1 - R 2 2) ≠ 0 :=
      ne_of_gt (Real.sqrt_pos.mpr hpos)
    have h2u : (2.0 : ℝ) * Real.sqrt (1.0 + R 0 0 - R 1 1 - R 2 2)
        = 2 * Real.sqrt (1.0 + R 0 0 - R 1 1 - R 2 2) := by norm_num
    rw [h2u]
    conv_rhs => rw [Matrix.eta_fin_three R]
    exact branch2_core _ hu hu0 hR1 hR2 hR3 hR4 hR5 hR6 hC1 hC2 hC3 hC4 hC5 hC6
      hA1 hA2 hA3 hA4 hA5 hA6 hA7 hA8 hA9
  · -- R 1 1 dominant branch
    push_neg at ht
    rcases not_and_or.mp hd1 with hx | hx <;> push_neg at hx
    · have hpos : (0:ℝ) < 1.0 + R 1 1 - R 0 0 - R 2 2 := by norm_num; linarith
      have hu : Real.sqrt (1.0 + R 1 1 - R 0 0 - R 2 2) ^ 2
          = 1 + R 1 1 - R 0 0 - R 2 2 := by
        rw [Real.sq_sqrt (le_of_lt hpos)]; ring
      have hu0 : Real.sqrt (1.0 + R 1 1 - R 0 0 - R 2 2) ≠ 0 :=
        ne_of_gt (Real.sqrt_pos.mpr hpos)
      have h2u : (2.0 : ℝ) * Real.sqrt (1.0 + R 1 1 - R 0 0 - R 2 2)
          = 2 * Real.sqrt (1.0 + R 1 1 - R 0 0 - R 2 2) := by norm_num
      rw [h2u]
      conv_rhs => rw [Matrix.eta_fin_three R]
      exact branch3_core _ hu hu0 hR1 hR2 hR3 hR4 hR5 hR6 hC1 hC2 hC3 hC4 hC5 hC6
        hA1 hA2 hA3 hA4 hA5 hA6 hA7 hA8 hA9
    · have hpos : (0:ℝ) < 1.0 + R 1 1 - R 0 0 - R 2 2 := by norm_num; linarith
      have hu : Real.sqrt (1.0 + R 1 1 - R 0 0 - R 2 2) ^ 2
          = 1 + R 1 1 - R 0 0 - R 2 2 := by
        rw [Real.sq_sqrt (le_of_lt hpos)]; ring
      have hu0 : Real.sqrt (1.0 + R 1 1 - R 0 0 - R 2 2) ≠ 0 :=
        ne_of_gt (Real.sqrt_pos.mpr hpos)
      have h2u : (2.0 : ℝ) * Real.sqrt (1.0 + R 1 1 - R 0 0 - R 2 2)
          = 2 * Real.sqrt (1.0 + R 1 1 - R 0 0 - R 2 2) := by norm_num
      rw [h2u]
      conv_rhs => rw [Matrix.eta_fin_three R]
      exact branch3_core _ hu hu0 hR1 hR2 hR3 hR4 hR5 hR6 hC1 hC2 hC3 hC4 hC5 hC6
        hA1 hA2 hA3 hA4 hA5 hA6 hA7 hA8 hA9
  · -- R 2 2 dominant branch
    push_neg at ht hd2
    rcases not_and_or.mp hd1 with hx | hx <;> push_neg at hx
    · have hpos : (0:ℝ) < 1.0 + R 2 2 - R 0 0 - R 1 1 := by norm_num; linarith
      have hu : Real.sqrt (1.0 + R 2 2 - R 0 0 - R 1 1) ^ 2
          = 1 + R 2 2 - R 0 0 - R 1 1 := by
        rw [Real.sq_sqrt (le_of_lt hpos)]; ring
      have hu0 : Real.sqrt (1.0 + R 2 2 - R 0 0 - R 1 1) ≠ 0 :=
        ne_of_gt (Real.sqrt_pos.mpr hpos)
      have h2u : (2.0 : ℝ) * Real.sqrt (1.0 + R 2 2 - R 0 0 - R 1 1)
          = 2 * Real.sqrt (1.0 + R 2 2 - R 0 0 - R 1 1) := by norm_num
      rw [h2u]
      conv_rhs => rw [Matrix.eta_fin_three R]
      exact branch4_core _ hu hu0 hR1 hR2 hR3 hR4 hR5 hR6 hC1 hC2 hC3 hC4 hC5 hC6
        hA1 hA2 hA3 hA4 hA5 hA6 hA7 hA8 hA9
    · have hpos : (0:ℝ) < 1.0 + R 2 2 - R 0 0 - R 1 1 := by norm_num; linarith
      have hu : Real.sqrt (1.0 + R 2 2 - R 0 0 - R 1 1) ^ 2
          = 1 + R 2 2 - R 0 0 - R 1 1 := by
        rw [Real.sq_sqrt (le_of_lt hpos)]; ring
      have hu0 : Real.sqrt (1.0 + R 2 2 - R 0 0 - R 1 1) ≠ 0 :=
        ne_of_gt (Real.sqrt_pos.mpr hpos)
      have h2u : (2.0 : ℝ) * Real.sqrt (1.0 + R 2 2 - R 0 0 - R 1 1)
          = 2 * Real.sqrt (1.0 + R 2 2 - R 0 0 - R 1 1) := by norm_num
      rw [h2u]
      conv_rhs => rw [Matrix.eta_fin_three R]
      exact branch4_core _ hu hu0 hR1 hR2 hR3 hR4 hR5 hR6 hC1 hC2 hC3 hC4 hC5 hC6
        hA1 hA2 hA3 hA4 hA5 hA6 hA7 hA8 hA9

/-- Witness for C5 at the identity rotation matrix. -/
theorem quaternion_roundtrip_exact_witness :
    (1 : Matrix (Fin 3) (Fin 3) ℝ) * (1 : Matrix (Fin 3) (Fin 3) ℝ)ᵀ = 1 ∧
      (1 : Matrix (Fin 3) (Fin 3) ℝ).det = 1 ∧
      quaternion_to_rotation_matrix
        (rotation_matrix_to_quaternion (1 : Matrix (Fin 3) (Fin 3) ℝ)) = 1 :=
  ⟨by simp, by simp, quaternion_roundtrip_exact 1 (by simp) (by simp)⟩

/-- Witness for C4 at the identity rotation and translation `(1,2,3)`. -/
theorem invert_pose_involutive_witness :
    (1 : Matrix (Fin 3) (Fin 3) ℝ)ᵀ * 1 = 1 ∧
      invert_pose (invert_pose ((1 : Matrix (Fin 3) (Fin 3) ℝ),
        (![1, 2, 3] : Fin 3 → ℝ))) = (1, ![1, 2, 3]) :=
  ⟨by simp, invert_pose_involutive 1 ![1, 2, 3] (by simp)⟩

/-- The slot occupied by item `i` of a batch run is determined by the number
of successful conversions strictly before it: starting the counters at an
arbitrary success count `c`. -/
lemma runConv_slot_spec (rs : List (Except String (Nat × Nat))) :
    ∀ (c i : Nat), i < rs.length →
      ((runConv (c / 10) (c % 10) rs)[i]?).map Prod.fst
        = some ((c + (rs.take i).countP Except.isOk) / 10,
                (c + (rs.take i).countP Except.isOk) % 10) := by
  induction rs with
  | nil => intro c i h; simp at h
  | cons r rest ih =>
    intro c i h
    cases r with
    | ok v =>
      cases i with
      | zero => simp [runConv]
      | succ i =>
        have hwrap : (if c % 10 + 1 ≥ 10 then runConv (c / 10 + 1) 0 rest
            else runConv (c / 10) (c % 10 + 1) rest)
            = runConv ((c + 1) / 10) ((c + 1) % 10) rest := by
          by_cases h9 : c % 10 + 1 ≥ 10
          · have h1 : c / 10 + 1 = (c + 1) / 10 := by omega
            have h2 : (0 : Nat) = (c + 1) % 10 := by omega
            rw [if_pos h9, h1, h2]
          · have h1 : c / 10 = (c + 1) / 10 := by omega
            have h2 : c % 10 + 1 = (c + 1) % 10 := by omega
            rw [if_neg h9, h1, h2]
        have hlen : i < rest.length := by simpa using h
        have htail := ih (c + 1) i hlen
        have harith : (c + 1) + (rest.take i).countP Except.isOk
            = c + (((Except.ok v : Except String (Nat × Nat)) :: rest).take (i + 1)).countP
                Except.isOk := by
          simp [List.countP_cons, Except.isOk, Except.toBool]
          omega
        simp only [runConv, hwrap, List.getElem?_cons_succ]
        rw [htail, ← harith]
    | error e =>
      cases i with
      | zero => simp [runConv]
      | succ i =>
        have hlen : i < rest.length := by simpa using h
        have htail := ih c i hlen
        have harith : c + (rest.take i).countP Except.isOk
            = c + (((Except.error e : Except String (Nat × Nat)) :: rest).take (i + 1)).countP
                Except.isOk := by
          simp [List.countP_cons, Except.isOk, Except.toBool]
        simp only [runConv, List.getElem?_cons_succ]
        rw [htail, ← harith]

/-- Counterexample for C1: with two discovered reconstructions where the
first fails, the second is assigned slot `(0, 0)` — reusing the failed
item's slot — not the claimed `(1 / 10, 1 % 10) = (0, 1)`. -/
theorem slot_assignment_not_unconditional :
    (runConv 0 0 [Except.error "boom", Except.ok (3, 5)]).map Prod.fst
        = [(0, 0), (0, 0)] ∧
      ((0 : Nat), (0 : Nat)) ≠ (1 / 10, 1 % 10) := by
  decide

/-- C1 (amended): the slot assigned to the `i`-th discovered reconstruction
is `(c / 10, c mod 10)` where `c` is the number of *successful* conversions
before it — the counter advances only on success, so a failed item does not
consume its slot and its slot is reused by the next item. -/
theorem slot_assignment_counts_successes
    (rs : List (Except String (Nat × Nat))) (i : Nat) (h : i < rs.length) :
    ((runConv 0 0 rs)[i]?).map Prod.fst
      = some (((rs.take i).countP Except.isOk) / 10,
              ((rs.take i).countP Except.isOk) % 10) := by
  simpa using runConv_slot_spec rs 0 i h

/-- Witness for C1 (amended) on a run whose first item fails. -/
theorem slot_assignment_counts_successes_witness :
    1 < ([Except.error "boom", Except.ok (3, 5)]
        : List (Except String (Nat × Nat))).length ∧
      ((runConv 0 0 [Except.error "boom", Except.ok (3, 5)])[1]?).map Prod.fst
        = some ((([Except.error "boom",
              Except.ok (3, 5)].take 1).countP Except.isOk) / 10,
            (([Except.error "boom",
              Except.ok (3, 5)].take 1).countP Except.isOk) % 10) :=
  ⟨by decide, slot_assignment_counts_successes _ 1 (by decide)⟩

/-- Name-sortedness of `sortImages` output (with `≤` on names). -/
lemma sortImages_sorted (l : List (Int × ImageData)) :
    List.Pairwise (fun p q : Int × ImageData => p.2.name ≤ q.2.name)
      (sortImages l) := by
  have htr : ∀ (p q r : Int × ImageData),
      decide (p.2.name ≤ q.2.name) = true → decide (q.2.name ≤ r.2.name) = true →
      decide (p.2.name ≤ r.2.name) = true := fun p q r hpq hqr =>
    decide_eq_true (le_trans (of_decide_eq_true hpq) (of_decide_eq_true hqr))
  have hto : ∀ (p q : Int × ImageData),
      (decide (p.2.name ≤ q.2.name) || decide (q.2.name ≤ p.2.name)) = true := by
    intro p q
    rcases le_total p.2.name q.2.name with hle | hle
    · simp [hle]
    · simp [hle]
  have h : List.Pairwise
      (fun p q : Int × ImageData => decide (p.2.name ≤ q.2.name) = true)
      (sortImages l) :=
    List.sorted_mergeSort htr hto l
  exact h.imp (fun hpq => of_decide_eq_true hpq)

/-- With pairwise-distinct names, `sortImages` output is strictly sorted. -/
lemma sortImages_strict_sorted (l : List (Int × ImageData))
    (hnd : (l.map (fun p => p.2.name)).Nodup) :
    List.Pairwise (fun p q : Int × ImageData => p.2.name < q.2.name)
      (sortImages l) := by
  have hp : (sortImages l).Perm l := List.mergeSort_perm l _
  have hnd' : ((sortImages l).map (fun p => p.2.name)).Nodup :=
    ((hp.map _).nodup_iff).mpr hnd
  have hne : List.Pairwise (fun p q : Int × ImageData => p.2.name ≠ q.2.name)
      (sortImages l) := List.pairwise_map.mp hnd'
  exact (sortImages_sorted l).imp₂
    (fun p q hle hnee => lt_of_le_of_ne hle hnee) hne

/-- C6: for records with pairwise-distinct file names, `sortImages` assigns
output positions `0..N-1` in strictly ascending lexicographic name order,
independently of the order of the input association list, and the output is
a permutation of the input records. -/
theorem output_index_sorted_by_name (l₁ l₂ : List (Int × ImageData))
    (hperm : l₁.Perm l₂)
    (hnodup : (l₁.map (fun p => p.2.name)).Nodup) :
    sortImages l₁ = sortImages l₂ ∧ (sortImages l₁).Perm l₁ ∧
      List.Pairwise (fun p q : Int × ImageData => p.2.name < q.2.name)
        (sortImages l₁) := by
  have hp1 : (sortImages l₁).Perm l₁ := List.mergeSort_perm l₁ _
  have hp2 : (sortImages l₂).Perm l₂ := List.mergeSort_perm l₂ _
  have hnodup₂ : (l₂.map (fun p => p.2.name)).Nodup :=
    ((hperm.map _).nodup_iff).mp hnodup
  have hpp : (sortImages l₁).Perm (sortImages l₂) :=
    hp1.trans (hperm.trans hp2.symm)
  haveI : IsAntisymm (Int × ImageData) (fun p q => p.2.name < q.2.name) :=
    ⟨fun p q h1 h2 => absurd h2 (lt_asymm h1)⟩
  exact ⟨List.eq_of_perm_of_sorted hpp (sortImages_strict_sorted l₁ hnodup)
      (sortImages_strict_sorted l₂ hnodup₂),
    hp1, sortImages_strict_sorted l₁ hnodup⟩

/-- Witness for C6 on a two-record list and its swap. -/
theorem output_index_sorted_by_name_witness :
    [((1 : Int), imgA), (2, imgB)].Perm [(2, imgB), (1, imgA)] ∧
      ([((1 : Int), imgA), (2, imgB)].map (fun p => p.2.name)).Nodup ∧
      (sortImages [((1 : Int), imgA), (2, imgB)]
          = sortImages [(2, imgB), (1, imgA)] ∧
        (sortImages [((1 : Int), imgA), (2, imgB)]).Perm
          [((1 : Int), imgA), (2, imgB)] ∧
        List.Pairwise (fun p q : Int × ImageData => p.2.name < q.2.name)
          (sortImages [((1 : Int), imgA), (2, imgB)])) := by
  have hp : [((1 : Int), imgA), (2, imgB)].Perm [(2, imgB), (1, imgA)] :=
    List.Perm.swap (2, imgB) (1, imgA) []
  have hn : ([((1 : Int), imgA), (2, imgB)].map (fun p => p.2.name)).Nodup := by
    simp [imgA, imgB]
  exact ⟨hp, hn, output_index_sorted_by_name _ _ hp hn⟩

/-- An unresolved entry leaves the loop state unchanged except for the
missing list; a whole run of unresolved entries therefore resolves nothing. -/
lemma seqLoop_all_unresolved (cameras : Int → Option CameraRec)
    (findImage : String → Option String) (imreadOk : String → Bool) :
    ∀ (l : List (Int × ImageData)) (idx : Nat) (st : SeqState),
      (∀ p ∈ l, resolvesSep findImage imreadOk p.2.name = false) →
      ∃ ms, seqLoop cameras findImage imreadOk idx l st
        = .ok { st with missing := st.missing ++ ms } := by
  intro l
  induction l with
  | nil =>
    intro idx st h
    exact ⟨[], by simp [seqLoop]⟩
  | cons q rest ih =>
    obtain ⟨qid, img⟩ := q
    intro idx st h
    have hres : resolvesSep findImage imreadOk img.name = false :=
      h (qid, img) (List.mem_cons_self _ _)
    have htail := ih (idx + 1)
      { st with missing := st.missing ++ [img.name] }
      (fun p hp => h p (List.mem_cons_of_mem _ hp))
    obtain ⟨ms, hms⟩ := htail
    refine ⟨img.name :: ms, ?_⟩
    cases hf : findImage img.name with
    | none =>
      simp [seqLoop, seqStep, hf, hms, List.append_assoc]
    | some src =>
      have hio : imreadOk src = false := by
        simpa [resolvesSep, hf] using hres
      simp [seqLoop, seqStep, hf, hio, hms, List.append_assoc]

/-- C7: if no image of the reconstruction resolves, `convert_sequence`
fails as a whole with `NoImagesResolved` instead of producing an empty
sequence output. -/
theorem no_images_resolved_fatal (cameras : Int → Option CameraRec)
    (images : List (Int × ImageData)) (points3D : List Point3D)
    (findImage : String → Option String) (imreadOk : String → Bool)
    (h : ∀ p ∈ images, resolvesSep findImage imreadOk p.2.name = false) :
    convert_sequence cameras images points3D findImage imreadOk
      = .error ConvErr.noImagesResolved := by
  have h' : ∀ p ∈ sortImages images,
      resolvesSep findImage imreadOk p.2.name = false :=
    fun p hp => h p (List.mem_mergeSort.mp hp)
  obtain ⟨ms, hms⟩ := seqLoop_all_unresolved cameras findImage imreadOk
    (sortImages images) 0 ⟨0, [], [], [], []⟩ h'
  simp only [convert_sequence]
  rw [hms]
  simp

/-- Witness for C7 on a one-image reconstruction whose image is missing. -/
theorem no_images_resolved_fatal_witness :
    (∀ p ∈ [((1 : Int), imgA)],
        resolvesSep (fun _ => none) (fun _ => false) p.2.name = false) ∧
      convert_sequence (fun _ => none) [((1 : Int), imgA)] []
          (fun _ => none) (fun _ => false)
        = .error ConvErr.noImagesResolved := by
  have h : ∀ p ∈ [((1 : Int), imgA)],
      resolvesSep (fun _ => none) (fun _ => false) p.2.name = false := by
    intro p hp
    simp only [List.mem_singleton] at hp
    subst hp
    rfl
  exact ⟨h, no_images_resolved_fatal _ _ _ _ _ h⟩

/-- A resolved entry whose camera id is absent from the camera dictionary
makes the image loop raise, so it can never return a final state. -/
lemma seqLoop_unknown_camera (cameras : Int → Option CameraRec)
    (findImage : String → Option String) (imreadOk : String → Bool) :
    ∀ (l : List (Int × ImageData)) (idx : Nat) (st : SeqState),
      (∃ p ∈ l, resolvesSep findImage imreadOk p.2.name = true ∧
        cameras p.2.camera_id = none) →
      ∃ e, seqLoop cameras findImage imreadOk idx l st = .error e := by
  intro l
  induction l with
  | nil =>
    intro idx st h
    simp at h
  | cons q rest ih =>
    obtain ⟨qid, img⟩ := q
    intro idx st h
    obtain ⟨p, hp, hres, hcam⟩ := h
    rcases List.mem_cons.mp hp with heq | hp'
    · subst heq
      cases hf : findImage img.name with
      | none => simp [resolvesSep, hf] at hres
      | some src =>
        have hio : imreadOk src = true := by
          simpa [resolvesSep, hf] using hres
        refine ⟨ConvErr.unknownCamera img.camera_id, ?_⟩
        simp [seqLoop, seqStep, hf, hio, hcam]
    · cases hs : seqStep cameras findImage imreadOk idx img st with
      | error e =>
        refine ⟨e, ?_⟩
        simp [seqLoop, hs]
      | ok st1 =>
        obtain ⟨e, he⟩ := ih (idx + 1) st1 ⟨p, hp', hres, hcam⟩
        refine ⟨e, ?_⟩
        simp [seqLoop, hs, he]

/-- C2 (amended): a resolved image entry whose camera id is absent from the
camera collection raises an uncaught `KeyError`, aborting the conversion of
the whole sequence (no sequence output is produced); the per-reconstruction
handler in the batch driver is what confines the failure. -/
theorem unknown_camera_fatal_to_sequence (cameras : Int → Option CameraRec)
    (images : List (Int × ImageData)) (points3D : List Point3D)
    (findImage : String → Option String) (imreadOk : String → Bool)
    (h : ∃ p ∈ images, resolvesSep findImage imreadOk p.2.name = true ∧
      cameras p.2.camera_id = none) :
    (convert_sequence cameras images points3D findImage imreadOk).isOk
      = false := by
  obtain ⟨p, hp, hres, hcam⟩ := h
  obtain ⟨e, he⟩ := seqLoop_unknown_camera cameras findImage imreadOk
    (sortImages images) 0 ⟨0, [], [], [], []⟩
    ⟨p, List.mem_mergeSort.mpr hp, hres, hcam⟩
  simp only [convert_sequence]
  rw [he]
  rfl

/-- Witness for C2 (amended) on a reconstruction whose only entry is
resolved but references camera id 2, absent from the dictionary. -/
theorem unknown_camera_fatal_to_sequence_witness :
    (∃ p ∈ [((2 : Int), imgBadCam)],
        resolvesSep (fun n => some n) (fun _ => true) p.2.name = true ∧
          camsW p.2.camera_id = none) ∧
      (convert_sequence camsW [((2 : Int), imgBadCam)] []
          (fun n => some n) (fun _ => true)).isOk = false := by
  have h : ∃ p ∈ [((2 : Int), imgBadCam)],
      resolvesSep (fun n => some n) (fun _ => true) p.2.name = true ∧
        camsW p.2.camera_id = none :=
    ⟨(2, imgBadCam), List.mem_singleton.mpr rfl, rfl, rfl⟩
  exact ⟨h, unknown_camera_fatal_to_sequence _ _ _ _ _ h⟩

/-- Counterexample for C2: a two-entry sequence whose second entry
references an absent camera id fails as a whole — the sequence output is
not produced with the remaining entry, contrary to the claim. -/
theorem unknown_camera_aborts_sequence_cex :
    convert_sequence camsW [((1 : Int), imgA), (2, imgBadCam)] []
        (fun n => some n) (fun _ => true)
      = .error (ConvErr.unknownCamera 2) := by
  have hs : sortImages [((1 : Int), imgA), (2, imgBadCam)]
      = [(1, imgA), (2, imgBadCam)] :=
    List.mergeSort_of_sorted (by simp [imgA, imgBadCam]; decide)
  simp only [convert_sequence]
  rw [hs]
  simp [seqLoop, seqStep, camsW, camPin, imgA, imgBadCam]

/-- Specification of the image loop on success: image writes and pose keys
use exactly the surviving output indices (gaps where entries were skipped),
and the intrinsics list concatenates the resolved entries' first four
camera parameters with no gap marker. -/
lemma seqLoop_ok_spec (cameras : Int → Option CameraRec)
    (findImage : String → Option String) (imreadOk : String → Bool) :
    ∀ (l : List (Int × ImageData)) (idx : Nat) (st st' : SeqState),
      seqLoop cameras findImage imreadOk idx l st = .ok st' →
      st'.imageWrites = st.imageWrites
          ++ (resolvedIdxFrom findImage imreadOk idx l).map
            (fun i => (i, zeroPad 8 i ++ ".jpg")) ∧
        st'.poses.map Prod.fst = st.poses.map Prod.fst
          ++ (resolvedIdxFrom findImage imreadOk idx l).map
            (fun i => "poses[" ++ toString i ++ "]") ∧
        st'.intrinsics = st.intrinsics
          ++ (resolvedRecords findImage imreadOk l).flatMap
            (fun img => match cameras img.camera_id with
              | some cam => cam.params.take 4
              | none => []) := by
  intro l
  induction l with
  | nil =>
    intro idx st st' h
    simp only [seqLoop] at h
    cases h
    simp [resolvedIdxFrom, resolvedRecords]
  | cons q rest ih =>
    obtain ⟨qid, img⟩ := q
    intro idx st st' h
    cases hf : findImage img.name with
    | none =>
      have hres : resolvesSep findImage imreadOk img.name = false := by
        simp [resolvesSep, hf]
      simp only [seqLoop, seqStep, hf] at h
      obtain ⟨h1, h2, h3⟩ := ih (idx + 1) _ st' h
      refine ⟨?_, ?_, ?_⟩ <;>
        simp_all [resolvedIdxFrom, resolvedRecords, List.enumFrom, hres]
    | some src =>
      cases hio : imreadOk src with
      | false =>
        have hres : resolvesSep findImage imreadOk img.name = false := by
          simp [resolvesSep, hf, hio]
        simp only [seqLoop, seqStep, hf, hio] at h
        simp only [Bool.false_eq_true, if_false] at h
        obtain ⟨h1, h2, h3⟩ := ih (idx + 1) _ st' h
        refine ⟨?_, ?_, ?_⟩ <;>
          simp_all [resolvedIdxFrom, resolvedRecords, List.enumFrom, hres]
      | true =>
        have hres : resolvesSep findImage imreadOk img.name = true := by
          simp [resolvesSep, hf, hio]
        simp only [seqLoop, seqStep, hf, hio, if_true] at h
        cases hcam : cameras img.camera_id with
        | none => simp [hcam] at h
        | some cam =>
          simp only [hcam] at h
          rcases hp : cam.params with _ | ⟨fx, _ | ⟨fy, _ | ⟨cx, _ | ⟨cy, tl⟩⟩⟩⟩ <;>
            simp only [hp] at h
          case nil => simp at h
          case cons.nil => simp at h
          case cons.cons.nil => simp at h
          case cons.cons.cons.nil => simp at h
          case cons.cons.cons.cons =>
            obtain ⟨h1, h2, h3⟩ := ih (idx + 1) _ st' h
            have hcons1 : resolvedIdxFrom findImage imreadOk idx
                ((qid, img) :: rest)
                = idx :: resolvedIdxFrom findImage imreadOk (idx + 1) rest := by
              simp [resolvedIdxFrom, List.enumFrom, hres]
            have hcons2 : resolvedRecords findImage imreadOk ((qid, img) :: rest)
                = img :: resolvedRecords findImage imreadOk rest := by
              simp [resolvedRecords, hres]
            rw [hcons1, hcons2]
            refine ⟨?_, ?_, ?_⟩
            · rw [h1]
              simp
            · rw [h2]
              simp
            · rw [h3]
              simp [hcam, hp]

/-- C10: on a successful `convert_sequence` run, the written image files and
the pose-dictionary keys use exactly the positions of the resolved entries
in the full name-sorted list — skipped entries leave permanent index gaps —
while the concatenated intrinsics file holds the four parameters of each
resolved entry consecutively with no gap marker. -/
theorem sequence_index_gaps (cameras : Int → Option CameraRec)
    (images : List (Int × ImageData)) (points3D : List Point3D)
    (findImage : String → Option String) (imreadOk : String → Bool)
    (hok : (convert_sequence cameras images points3D findImage imreadOk).isOk
      = true) :
    seqImageWritesOf (convert_sequence cameras images points3D findImage imreadOk)
        = (resolvedIdxFrom findImage imreadOk 0 (sortImages images)).map
          (fun i => (i, zeroPad 8 i ++ ".jpg")) ∧
      seqMotionKeysOf (convert_sequence cameras images points3D findImage imreadOk)
        = (resolvedIdxFrom findImage imreadOk 0 (sortImages images)).map
          (fun i => "poses[" ++ toString i ++ "]") ∧
      seqIntrinsicsOf (convert_sequence cameras images points3D findImage imreadOk)
        = (resolvedRecords findImage imreadOk (sortImages images)).flatMap
          (fun img => match cameras img.camera_id with
            | some cam => cam.params.take 4
            | none => []) := by
  cases hres : seqLoop cameras findImage imreadOk 0 (sortImages images)
      ⟨0, [], [], [], []⟩ with
  | error e =>
    rw [convert_sequence] at hok
    rw [hres] at hok
    simp [Except.isOk, Except.toBool] at hok
  | ok st =>
    obtain ⟨h1, h2, h3⟩ := seqLoop_ok_spec cameras findImage imreadOk
      (sortImages images) 0 _ st hres
    by_cases hf0 : st.found = 0
    · rw [convert_sequence] at hok
      rw [hres] at hok
      simp [hf0, Except.isOk, Except.toBool] at hok
    · have hval : convert_sequence cameras images points3D findImage imreadOk
          = .ok {
            imageWrites := st.imageWrites
            missing := st.missing
            intrinsicsFile := st.intrinsics
            motionKeys := st.poses.map Prod.fst
            motionPoses := st.poses.map Prod.snd
            plyLines := writePly points3D
            nImages := st.found
            nPoints := points3D.length } := by
        rw [convert_sequence, hres]
        simp [hf0]
      rw [hval]
      exact ⟨by simpa using h1, by simpa using h2, by simpa using h3⟩

/-- Witness for C10 on a one-image reconstruction that resolves. -/
theorem sequence_index_gaps_witness :
    (convert_sequence camsW [((1 : Int), imgA)] []
        (fun n => some n) (fun _ => true)).isOk = true ∧
      (seqImageWritesOf (convert_sequence camsW [((1 : Int), imgA)] []
            (fun n => some n) (fun _ => true))
          = (resolvedIdxFrom (fun n => some n) (fun _ => true) 0
              (sortImages [((1 : Int), imgA)])).map
            (fun i => (i, zeroPad 8 i ++ ".jpg")) ∧
        seqMotionKeysOf (convert_sequence camsW [((1 : Int), imgA)] []
            (fun n => some n) (fun _ => true))
          = (resolvedIdxFrom (fun n => some n) (fun _ => true) 0
              (sortImages [((1 : Int), imgA)])).map
            (fun i => "poses[" ++ toString i ++ "]") ∧
        seqIntrinsicsOf (convert_sequence camsW [((1 : Int), imgA)] []
            (fun n => some n) (fun _ => true))
          = (resolvedRecords (fun n => some n) (fun _ => true)
              (sortImages [((1 : Int), imgA)])).flatMap
            (fun img => match camsW img.camera_id with
              | some cam => cam.params.take 4
              | none => [])) := by
  have hs : sortImages [((1 : Int), imgA)] = [(1, imgA)] :=
    List.mergeSort_of_sorted (by simp)
  have hok : (convert_sequence camsW [((1 : Int), imgA)] []
      (fun n => some n) (fun _ => true)).isOk = true := by
    simp only [convert_sequence]
    rw [hs]
    simp [seqLoop, seqStep, camsW, camPin, imgA, Except.isOk, Except.toBool]
  exact ⟨hok, sequence_index_gaps _ _ _ _ _ hok⟩

/-- Counterexample for C3: in the batch converter, a reconstruction whose
single image does not resolve still emits an intrinsics record and a pose
entry for output index 0 (only the image file itself is missing). -/
theorem unresolved_image_still_emits_cex :
    (intrinsicsOf (convert_colmap_to_training_format camsW [((1 : Int), imgA)]
        [] (fun _ => none))).map Prod.fst = [0] ∧
      (motionOf (convert_colmap_to_training_format camsW [((1 : Int), imgA)]
        [] (fun _ => none))).map Prod.fst = [0] ∧
      imageWritesOf (convert_colmap_to_training_format camsW [((1 : Int), imgA)]
        [] (fun _ => none)) = [] := by
  have hs : sortImages [((1 : Int), imgA)] = [(1, imgA)] :=
    List.mergeSort_of_sorted (by simp)
  refine ⟨?_, ?_, ?_⟩ <;>
    · simp only [convert_colmap_to_training_format]
      rw [hs]
      simp [batchLoop, batchStep, camsW, camPin, imgA,
        intrinsicsOf, motionOf, imageWritesOf]

/-- C3 (amended): in `convert_with_separate_images.py` an unresolved entry
is skipped entirely — the loop step emits no image write, no intrinsics
values and no pose entry, records the name in the in-memory missing list,
and does not abort; in `batch_convert_colmap.py` an unresolved entry only
skips the image copy — a warning is recorded but the intrinsics record and
the pose entry are still emitted for its index. -/
theorem unresolved_image_handling :
    (∀ (cameras : Int → Option CameraRec) (findImage : String → Option String)
        (imreadOk : String → Bool) (idx : Nat) (img : ImageData)
        (st : SeqState),
        resolvesSep findImage imreadOk img.name = false →
        seqStep cameras findImage imreadOk idx img st
          = .ok { st with missing := st.missing ++ [img.name] }) ∧
      (∀ (cameras : Int → Option CameraRec) (resolveSrc : String → Option String)
          (idx : Nat) (img : ImageData) (st : BatchSeqState) (cam : CameraRec)
          (fx fy cx cy : ℝ) (tl : List ℝ),
          resolveSrc img.name = none →
          cameras img.camera_id = some cam →
          cam.params = fx :: fy :: cx :: cy :: tl →
          batchStep cameras resolveSrc idx img st = .ok
            { st with
              warnings := st.warnings ++ [img.name],
              intrinsicsWrites := st.intrinsicsWrites
                ++ [(idx, intrinsicMatrix fx fy cx cy)],
              motion := st.motion ++ [(idx,
                buildPose (quaternion_to_rotation_matrix img.quat)ᵀ
                  (-((quaternion_to_rotation_matrix img.quat)ᵀ.mulVec
                    img.trans)))] }) := by
  constructor
  · intro cameras findImage imreadOk idx img st hres
    cases hf : findImage img.name with
    | none => simp [seqStep, hf]
    | some src =>
      have hio : imreadOk src = false := by
        simpa [resolvesSep, hf] using hres
      simp [seqStep, hf, hio]
  · intro cameras resolveSrc idx img st cam fx fy cx cy tl hrs hcam hp
    simp [batchStep, hrs, hcam, hp]

/-- Witness for C3 (amended) on concrete unresolved entries. -/
theorem unresolved_image_handling_witness :
    (resolvesSep (fun _ => none) (fun _ => false) imgA.name = false ∧
      seqStep (fun _ => none) (fun _ => none) (fun _ => false) 0 imgA
          (⟨0, [], [], [], []⟩ : SeqState)
        = .ok { (⟨0, [], [], [], []⟩ : SeqState) with
            missing := [] ++ [imgA.name] }) ∧
      ((fun _ => (none : Option String)) imgA.name = none ∧
        camsW imgA.camera_id = some camPin ∧
        camPin.params = 500 :: 500 :: 320 :: 240 :: [] ∧
        batchStep camsW (fun _ => none) 0 imgA
            (⟨[], [], [], []⟩ : BatchSeqState)
          = .ok { (⟨[], [], [], []⟩ : BatchSeqState) with
              warnings := [] ++ [imgA.name],
              intrinsicsWrites := []
                ++ [(0, intrinsicMatrix 500 500 320 240)],
              motion := [] ++ [(0,
                buildPose (quaternion_to_rotation_matrix imgA.quat)ᵀ
                  (-((quaternion_to_rotation_matrix imgA.quat)ᵀ.mulVec
                    imgA.trans)))] }) :=
  ⟨⟨rfl, unresolved_image_handling.1 _ _ _ 0 imgA _ rfl⟩,
    ⟨rfl, rfl, rfl,
      unresolved_image_handling.2 _ _ 0 imgA _ camPin 500 500 320 240 []
        rfl rfl rfl⟩⟩

/-- The fourth row of `buildPose` is the untouched last row of `np.eye(4)`. -/
lemma buildPose_last_row (R : Matrix (Fin 3) (Fin 3) ℝ) (t : Fin 3 → ℝ) :
    buildPose R t 3 0 = 0 ∧ buildPose R t 3 1 = 0 ∧
      buildPose R t 3 2 = 0 ∧ buildPose R t 3 3 = 1 := by
  refine ⟨?_, ?_, ?_, ?_⟩ <;>
    simp [buildPose, show ((3 : Fin 4) : Nat) = 3 from rfl]

/-- The batch loop only ever appends `buildPose` matrices to the motion
list, so the fourth-row property is invariant. -/
lemma batchLoop_motion_row3 (cameras : Int → Option CameraRec)
    (resolveSrc : String → Option String) :
    ∀ (l : List (Int × ImageData)) (idx : Nat) (st st' : BatchSeqState),
      batchLoop cameras resolveSrc idx l st = .ok st' →
      (∀ T ∈ st.motion.map Prod.snd,
        T 3 0 = 0 ∧ T 3 1 = 0 ∧ T 3 2 = 0 ∧ T 3 3 = 1) →
      ∀ T ∈ st'.motion.map Prod.snd,
        T 3 0 = 0 ∧ T 3 1 = 0 ∧ T 3 2 = 0 ∧ T 3 3 = 1 := by
  intro l
  induction l with
  | nil =>
    intro idx st st' h hinv
    simp only [batchLoop] at h
    cases h
    exact hinv
  | cons q rest ih =>
    obtain ⟨qid, img⟩ := q
    intro idx st st' h hinv
    simp only [batchLoop, batchStep] at h
    cases hcam : cameras img.camera_id with
    | none =>
      rcases hrs : resolveSrc img.name with _ | src <;>
        simp [hrs, hcam] at h
    | some cam =>
      rcases hp : cam.params with _ | ⟨fx, _ | ⟨fy, _ | ⟨cx, _ | ⟨cy, tl⟩⟩⟩⟩ <;>
        rcases hrs : resolveSrc img.name with _ | src <;>
          simp only [hrs, hcam, hp] at h <;>
            first
            | simp at h
            | · refine ih (idx + 1) _ st' h ?_
                intro T hT
                simp only [List.map_append, List.mem_append] at hT
                rcases hT with hT | hT
                · exact hinv T hT
                · simp only [List.map_cons, List.map_nil,
                    List.mem_singleton] at hT
                  subst hT
                  exact buildPose_last_row _ _
  
/-- C9: every camera-to-world pose matrix the batch converter stores in the
sequence pose file has fourth row exactly `(0, 0, 0, 1)` — every emitted
pose is a well-formed homogeneous rigid transform. -/
theorem pose_matrix_last_row (cameras : Int → Option CameraRec)
    (images : List (Int × ImageData)) (points3D : List Point3D)
    (resolveSrc : String → Option String) :
    ((motionOf (convert_colmap_to_training_format cameras images points3D
        resolveSrc)).map Prod.snd).Forall
      (fun T => T 3 0 = 0 ∧ T 3 1 = 0 ∧ T 3 2 = 0 ∧ T 3 3 = 1) := by
  rw [List.forall_iff_forall_mem]
  intro T hT
  rw [convert_colmap_to_training_format] at hT
  cases hres : batchLoop cameras resolveSrc 0 (sortImages images)
      ⟨[], [], [], []⟩ with
  | error e =>
    rw [hres] at hT
    simp [motionOf] at hT
  | ok st =>
    rw [hres] at hT
    simp only [motionOf] at hT
    exact batchLoop_motion_row3 cameras resolveSrc (sortImages images) 0 _ st
      hres (by simp) T hT

/-- The point parser emits exactly one record per surviving data line. -/
lemma parse_points_length :
    ∀ (lines : List String) (pts : List Point3D),
      read_colmap_points3D lines = .ok pts →
      pts.length = (lines.filter isDataLine).length := by
  intro lines
  induction lines with
  | nil =>
    intro pts h
    simp only [read_colmap_points3D] at h
    cases h
    simp
  | cons l rest ih =>
    intro pts h
    simp only [read_colmap_points3D] at h
    by_cases hd : isDataLine l
    · rw [if_pos hd] at h
      split at h
      · split at h
        · cases hr : read_colmap_points3D rest with
          | error e => rw [hr] at h; simp [Except.map] at h
          | ok ps =>
            rw [hr] at h
            simp only [Except.map] at h
            cases h
            simp [List.filter_cons, hd, ih ps hr]
        · simp at h
      · simp at h
    · rw [if_neg hd] at h
      simp [List.filter_cons, hd, ih pts h]

/-- C8: the point-cloud exporter writes a header whose declared vertex
count is the decimal rendering of the number of parsed records, followed by
exactly one vertex line per record in parse order; the record count equals
the number of surviving data lines, and an empty point set yields a
zero-vertex file. -/
theorem ply_vertex_count_matches_parsed (lines : List String)
    (pts : List Point3D) (hparse : read_colmap_points3D lines = .ok pts) :
    declaredVertexCount (writePly pts) = some (toString pts.length) ∧
      vertexLines (writePly pts) = pts.map plyVertexLine ∧
      pts.length = (lines.filter isDataLine).length := by
  refine ⟨?_, ?_, parse_points_length lines pts hparse⟩
  · have hdrop : ∀ t : String, ("element vertex " ++ t).drop 15 = t := by
      intro t
      rw [String.drop_eq, String.data_append]
      rw [show (15 : Nat) = "element vertex ".data.length from rfl,
        List.drop_left]
    show ((writePly pts).get? 2).map (fun l => l.drop 15) = _
    rw [show (writePly pts).get? 2
        = some ("element vertex " ++ toString pts.length) from rfl]
    simp [hdrop]
  · rfl

/-- Witness for C8 on the empty input: an empty point set is valid and
produces a zero-vertex file. -/
theorem ply_vertex_count_matches_parsed_witness :
    read_colmap_points3D [] = .ok [] ∧
      (declaredVertexCount (writePly ([] : List Point3D))
          = some (toString ([] : List Point3D).length) ∧
        vertexLines (writePly ([] : List Point3D))
          = ([] : List Point3D).map plyVertexLine ∧
        ([] : List Point3D).length
          = (([] : List String).filter isDataLine).length) :=
  ⟨rfl, ply_vertex_count_matches_parsed [] [] rfl⟩

end Densnet
